import Mathlib

/-!
Shallow embedding of the benchmark harness in `helper/benchmark.py`
(the WIS benchmark client): workload definitions, the thread-safe
statistics collector, the terminal request/think-time loop, the report
generator, and the orchestrator's startup and interrupt handling.

Durations and wall-clock timestamps are modelled as rationals; HTTP
status codes as integers; the outcome of one HTTP request as
`Except String Int` (a transport-level exception or a status code).
-/

namespace Benchmark

/-- One entry of the module-level `QUERIES` list: a query name, a relative
selection weight, and a path template. -/
structure Query where
  name : String
  weight : ℚ
  path : String
deriving DecidableEq, Repr

/-- The module-level `QUERIES` list of `benchmark.py`, in source order. -/
def QUERIES : List Query :=
  [ { name := "Q1", weight := 25/100, path := "/api/seats?year=2025" },
    { name := "Q2", weight := 10/100, path := "/api/members?year=2025" },
    { name := "Q3", weight := 25/100, path := "/api/constituency/\x7bid\x7d/overview?year=2025" },
    { name := "Q4", weight := 10/100, path := "/api/constituency-winners?year=2025" },
    { name := "Q5", weight := 10/100, path := "/api/direct-without-coverage?year=2025" },
    { name := "Q6", weight := 20/100, path := "/api/closest-winners?year=2025" } ]

/-- The module-level `DEFAULT_BASE_URL` constant. -/
def DEFAULT_BASE_URL : String := "http://localhost:4000"

/-- The dict appended to `BenchmarkStats.results` by `add_result`. -/
structure Sample where
  query : String
  duration : ℚ
  status : ℤ
  timestamp : ℚ
deriving DecidableEq, Repr

/-- The mutable state of the `BenchmarkStats` collector: the `results`
list, the `errors` counter and the two run timestamps.  The `threading.Lock`
serialises `add_result` calls; the embedding represents the serialised
history directly, so the lock itself has no separate model. -/
structure BenchmarkStats where
  results : List Sample
  errors : ℕ
  start_time : ℚ
  end_time : ℚ
deriving DecidableEq, Repr

/-- `BenchmarkStats.__init__`: empty results, zero errors, zero timestamps. -/
def BenchmarkStats.init : BenchmarkStats :=
  { results := [], errors := 0, start_time := 0, end_time := 0 }

/-- `BenchmarkStats.start`: records the current wall-clock time. -/
def BenchmarkStats.start (s : BenchmarkStats) (now : ℚ) : BenchmarkStats :=
  { s with start_time := now }

/-- `BenchmarkStats.stop`: records the current wall-clock time. -/
def BenchmarkStats.stop (s : BenchmarkStats) (now : ℚ) : BenchmarkStats :=
  { s with end_time := now }

/-- The error test of `add_result`: `status_code < 200 or status_code >= 400`. -/
def isError (status : ℤ) : Bool :=
  status < 200 || 400 ≤ status

/-- `BenchmarkStats.add_result`: appends one sample dict to `results` and
increments `errors` when the status code is outside `[200, 400)`. -/
def BenchmarkStats.add_result (s : BenchmarkStats) (query : String)
    (duration : ℚ) (status : ℤ) (now : ℚ) : BenchmarkStats :=
  { s with
    results := s.results ++ [{ query := query, duration := duration,
                               status := status, timestamp := now }],
    errors := s.errors + (if isError status then 1 else 0) }

/-- Number of stored samples whose status code is outside `[200, 400)`. -/
def errCount (rs : List Sample) : ℕ :=
  (rs.filter (fun r => isError r.status)).length

/-- Number of stored samples whose status code is inside `[200, 400)`. -/
def succCount (rs : List Sample) : ℕ :=
  (rs.filter (fun r => !(isError r.status))).length

/-- One mutating operation on the collector: an `add_result` call, or one
of the timestamp setters `start` / `stop`. -/
inductive StatsStep : BenchmarkStats → BenchmarkStats → Prop where
  | add : ∀ (s : BenchmarkStats) (q : String) (d : ℚ) (st : ℤ) (ts : ℚ),
      StatsStep s (s.add_result q d st ts)
  | start : ∀ (s : BenchmarkStats) (t : ℚ), StatsStep s (s.start t)
  | stop : ∀ (s : BenchmarkStats) (t : ℚ), StatsStep s (s.stop t)

/-- States of the collector reachable from `__init__` by any sequence of
operations. -/
inductive Reachable : BenchmarkStats → Prop where
  | init : Reachable BenchmarkStats.init
  | step : ∀ (s s2 : BenchmarkStats), Reachable s → StatsStep s s2 → Reachable s2

lemma length_filter_add_length_filter_not (p : Sample → Bool) (l : List Sample) :
    (l.filter p).length + (l.filter (fun a => !(p a))).length = l.length := by
  induction l with
  | nil => rfl
  | cons a l ih =>
    by_cases h : p a = true
    · simp [List.filter_cons, h, Nat.succ_add, ih]
    · simp only [Bool.not_eq_true] at h
      simp [List.filter_cons, h, ← ih]
      omega

lemma errCount_add_result (s : BenchmarkStats) (q : String) (d : ℚ) (st : ℤ) (ts : ℚ) :
    errCount (s.add_result q d st ts).results
      = errCount s.results + (if isError st then 1 else 0) := by
  simp only [BenchmarkStats.add_result, errCount, List.filter_append, List.length_append]
  by_cases h : isError st = true <;> simp [h]

lemma reachable_errors_eq (s : BenchmarkStats) (h : Reachable s) :
    s.errors = errCount s.results := by
  induction h with
  | init => rfl
  | step s s2 _ hstep ih =>
    cases hstep with
    | add q d st ts =>
      rw [errCount_add_result]
      simp [BenchmarkStats.add_result, ih]
    | start t => simpa [BenchmarkStats.start, errCount] using ih
    | stop t => simpa [BenchmarkStats.stop, errCount] using ih

/-- **C2.** For every reachable state of the collector, the number of stored
samples equals the number of success samples plus the error counter; the
error counter equals the number of stored samples whose status is outside
`[200, 400)` and never exceeds the number of stored samples; and every
operation leaves the error counter non-decreasing. -/
theorem stats_invariant (s : BenchmarkStats) (h : Reachable s) :
    s.results.length = succCount s.results + s.errors ∧
    s.errors = errCount s.results ∧
    s.errors ≤ s.results.length ∧
    (∀ s2 : BenchmarkStats, StatsStep s s2 → s.errors ≤ s2.errors) := by
  have herr : s.errors = errCount s.results := reachable_errors_eq s h
  have hsplit := length_filter_add_length_filter_not (fun r => isError r.status) s.results
  refine ⟨?_, herr, ?_, ?_⟩
  · simp only [herr, succCount, errCount] at *
    omega
  · have : errCount s.results ≤ s.results.length := by
      simpa [errCount] using List.length_filter_le (fun r => isError r.status) s.results
    omega
  · intro s2 hstep
    cases hstep with
    | add q d st ts =>
      simp only [BenchmarkStats.add_result]
      omega
    | start t => exact le_refl _
    | stop t => exact le_refl _

/-- Witness for `stats_invariant` at the state reached by one error-status
`add_result` from the initial state. -/
theorem stats_invariant_witness :
    (let s := BenchmarkStats.init.add_result "Q1" 1 599 0
     s.results.length = succCount s.results + s.errors ∧
     s.errors = errCount s.results ∧
     s.errors ≤ s.results.length ∧
     (∀ s2 : BenchmarkStats, StatsStep s s2 → s.errors ≤ s2.errors)) :=
  stats_invariant (BenchmarkStats.init.add_result "Q1" 1 599 0)
    (Reachable.step _ _ Reachable.init (StatsStep.add _ "Q1" 1 599 0))

/-! ### Terminal loop (`Terminal.run`) -/

/-- The status code stored for one request attempt: the HTTP status when the
request returned, the sentinel `599` when `requests.get` raised (the
`except Exception` branch of `Terminal.run`). -/
def recordedStatus : Except String ℤ → ℤ
  | Except.ok st => st
  | Except.error _ => 599

/-- The environment one loop iteration of `Terminal.run` observes: the value
of `stop_event.is_set()` at the `while` check, the value of
`time.time() - start_run` at the duration check, the query name drawn by
`random.choices`, the request outcome with its measured duration
`req_end - req_start`, the wall clock at recording time, and the unit draw
feeding `random.uniform` for the think time. -/
structure IterObs where
  stopSet : Bool
  elapsed : ℚ
  qname : String
  reqDuration : ℚ
  outcome : Except String ℤ
  now : ℚ
  thinkU : ℚ
deriving Repr

/-- The `while not self.stop_event.is_set():` loop of `Terminal.run`, driven
by the list of per-iteration observations: the loop first re-checks the stop
event, then breaks if `time.time() - start_run > self.duration`, and
otherwise records exactly one sample via `add_result` and continues.
Returns the collector state and the number of iterations that executed
their body. -/
def Terminal.runLoop (d : ℚ) : BenchmarkStats → List IterObs → BenchmarkStats × ℕ
  | stats, [] => (stats, 0)
  | stats, o :: rest =>
    if o.stopSet then (stats, 0)
    else if d < o.elapsed then (stats, 0)
    else
      let next := Terminal.runLoop d
        (stats.add_result o.qname o.reqDuration (recordedStatus o.outcome) o.now) rest
      (next.1, next.2 + 1)

/-- `random.uniform(a, b)` modelled on a unit draw `u ∈ [0, 1]`:
`a + (b - a) * u`. -/
def uniform (a b u : ℚ) : ℚ := a + (b - a) * u

/-- The think-time draw of `Terminal.run`:
`random.uniform(0.8 * self.avg_wait_time, 1.2 * self.avg_wait_time)`. -/
def think_time (t u : ℚ) : ℚ := uniform (8/10 * t) (12/10 * t) u

lemma runLoop_length (d : ℚ) (stats : BenchmarkStats) (os : List IterObs) :
    (Terminal.runLoop d stats os).1.results.length
      = stats.results.length + (Terminal.runLoop d stats os).2 := by
  induction os generalizing stats with
  | nil => rfl
  | cons o rest ih =>
    by_cases h1 : o.stopSet = true
    · simp [Terminal.runLoop, h1]
    · by_cases h2 : d < o.elapsed
      · simp [Terminal.runLoop, if_neg h1, h2]
      · have h3 := ih (stats.add_result o.qname o.reqDuration (recordedStatus o.outcome) o.now)
        simp only [Terminal.runLoop, if_neg h1, if_neg h2]
        rw [h3]
        simp only [BenchmarkStats.add_result, List.length_append, List.length_singleton]
        omega

/-- **C3.** Every executed loop iteration records exactly one sample (the
stored sample count grows by exactly the number of executed iterations, so a
transport failure does not end the loop or skip the record); a transport
failure is recorded with the sentinel status `599`; the error test of
`add_result` holds exactly for status codes outside `[200, 400)`; and an
`add_result` call increments the error counter by one exactly when its
status code is outside `[200, 400)`, leaving it unchanged otherwise. -/
theorem one_sample_per_attempt (d : ℚ) (stats : BenchmarkStats) (os : List IterObs) :
    (Terminal.runLoop d stats os).1.results.length
      = stats.results.length + (Terminal.runLoop d stats os).2 ∧
    (∀ e : String, recordedStatus (Except.error e) = 599) ∧
    (∀ st : ℤ, isError st = true ↔ (st < 200 ∨ 400 ≤ st)) ∧
    (∀ (s : BenchmarkStats) (q : String) (dur : ℚ) (st : ℤ) (ts : ℚ),
      ((s.add_result q dur st ts).errors = s.errors + 1 ↔ isError st = true) ∧
      (isError st = false → (s.add_result q dur st ts).errors = s.errors)) := by
  refine ⟨runLoop_length d stats os, fun e => rfl, ?_, ?_⟩
  · intro st
    simp [isError]
  · intro s q dur st ts
    constructor
    · by_cases h : isError st = true <;> simp [BenchmarkStats.add_result, h]
    · intro h
      simp [BenchmarkStats.add_result, h]

/-- Witness for `one_sample_per_attempt`: a single-iteration run with a
transport failure records one sample, and `599` is classified as an error. -/
theorem one_sample_per_attempt_witness :
    (let o : IterObs := { stopSet := false, elapsed := 1, qname := "Q1",
                          reqDuration := 2, outcome := Except.error "timeout",
                          now := 3, thinkU := 0 }
     (Terminal.runLoop 30 BenchmarkStats.init [o]).1.results.length
       = BenchmarkStats.init.results.length + (Terminal.runLoop 30 BenchmarkStats.init [o]).2) ∧
    recordedStatus (Except.error "timeout") = 599 ∧
    (isError 599 = true ↔ ((599 : ℤ) < 200 ∨ 400 ≤ (599 : ℤ))) :=
  ⟨(one_sample_per_attempt 30 BenchmarkStats.init _).1,
   (one_sample_per_attempt 30 BenchmarkStats.init []).2.1 "timeout",
   (one_sample_per_attempt 30 BenchmarkStats.init []).2.2.1 599⟩

/-- **C7.** The loop body runs only while the stop event is unset and the
elapsed time has not exceeded `d`: every executed iteration observed
`stop_event.is_set() = false` and `elapsed ≤ d` at its checks, and as soon
as some iteration's checks see the stop event set or `elapsed > d`, no
iteration from that point on begins — so a terminal can overrun `d` only by
the single iteration that began while `elapsed ≤ d`. -/
theorem loop_stop_conditions (d : ℚ) (stats : BenchmarkStats) (os : List IterObs) (k : ℕ)
    (hk : k < os.length) :
    (k < (Terminal.runLoop d stats os).2 →
      (os.get ⟨k, hk⟩).stopSet = false ∧ (os.get ⟨k, hk⟩).elapsed ≤ d) ∧
    ((os.get ⟨k, hk⟩).stopSet = true ∨ d < (os.get ⟨k, hk⟩).elapsed →
      (Terminal.runLoop d stats os).2 ≤ k) := by
  induction os generalizing stats k with
  | nil => exact absurd hk (by simp)
  | cons o rest ih =>
    by_cases h1 : o.stopSet = true
    · constructor
      · intro hlt
        simp [Terminal.runLoop, h1] at hlt
      · intro _
        simp [Terminal.runLoop, h1]
    · by_cases h2 : d < o.elapsed
      · constructor
        · intro hlt
          simp [Terminal.runLoop, if_neg h1, h2] at hlt
        · intro _
          simp [Terminal.runLoop, if_neg h1, h2]
      · cases k with
        | zero =>
          refine ⟨fun _ => ?_, fun hbad => ?_⟩
          · exact ⟨by simpa using h1, le_of_not_lt h2⟩
          · rcases hbad with hb | hb
            · exact absurd hb h1
            · exact absurd hb h2
        | succ k =>
          have hk2 : k < rest.length := by simpa using hk
          have hrec := ih (stats.add_result o.qname o.reqDuration (recordedStatus o.outcome) o.now) k hk2
          constructor
          · intro hlt
            simp only [Terminal.runLoop, if_neg h1, if_neg h2] at hlt
            exact hrec.1 (by omega)
          · intro hbad
            simp only [Terminal.runLoop, if_neg h1, if_neg h2]
            have := hrec.2 hbad
            omega

/-- Witness for `loop_stop_conditions`: in a two-iteration trace whose second
check sees the stop event set, the executed first iteration passed both
checks and the loop count is at most one. -/
theorem loop_stop_conditions_witness :
    (let o1 : IterObs := { stopSet := false, elapsed := 1, qname := "Q1",
                           reqDuration := 2, outcome := Except.ok 200, now := 3, thinkU := 0 }
     let o2 : IterObs := { stopSet := true, elapsed := 2, qname := "Q2",
                           reqDuration := 2, outcome := Except.ok 200, now := 4, thinkU := 0 }
     (1 < (Terminal.runLoop 30 BenchmarkStats.init [o1, o2]).2 →
       ([o1, o2].get ⟨1, by decide⟩).stopSet = false ∧
       ([o1, o2].get ⟨1, by decide⟩).elapsed ≤ 30) ∧
     (([o1, o2].get ⟨1, by decide⟩).stopSet = true ∨ (30 : ℚ) < ([o1, o2].get ⟨1, by decide⟩).elapsed →
       (Terminal.runLoop 30 BenchmarkStats.init [o1, o2]).2 ≤ 1)) :=
  loop_stop_conditions 30 BenchmarkStats.init _ 1 (by decide)

/-- **C8.** For every positive configured mean `t` and every unit draw
`u ∈ [0, 1]`, the think-time value drawn by `Terminal.run` lies in the
closed interval `[0.8 * t, 1.2 * t]`. -/
theorem think_time_bounds (t u : ℚ) (ht : 0 < t) (h0 : 0 ≤ u) (h1 : u ≤ 1) :
    8/10 * t ≤ think_time t u ∧ think_time t u ≤ 12/10 * t := by
  unfold think_time uniform
  constructor
  · nlinarith
  · nlinarith

/-- Witness for `think_time_bounds` at `t = 1`, `u = 1/2`. -/
theorem think_time_bounds_witness :
    (0 : ℚ) < 1 ∧ (0 : ℚ) ≤ 1/2 ∧ (1/2 : ℚ) ≤ 1 ∧
    (8/10 * (1 : ℚ) ≤ think_time 1 (1/2) ∧ think_time 1 (1/2) ≤ 12/10 * 1) :=
  ⟨by norm_num, by norm_num, by norm_num,
   think_time_bounds 1 (1/2) (by norm_num) (by norm_num) (by norm_num)⟩

/-! ### Workload selection on the shared random source -/

/-- Model of the process-wide random generator of `benchmark.py`
(`random.seed(42)` seeds one module-level Mersenne Twister that every
terminal thread draws from): a deterministic stream of unit draws indexed
by the global draw order, the `n`-th draw a function of the seed and `n`
only.  The concrete mixing arithmetic stands in for the Mersenne Twister;
the theorems rely only on the source-level facts that the stream is shared,
sequential, and deterministic in the seed. -/
def sharedRandomStream (seed n : ℕ) : ℚ := (((seed + 37 * n) % 100 : ℕ) : ℚ) / 100

/-- `bisect.bisect_right` over cumulative weights, as performed inside
`random.choices`: the index of the first cumulative weight strictly above
the draw. -/
def bisectCum (u acc : ℚ) : List ℚ → ℕ
  | [] => 0
  | w :: rest => if u < acc + w then 0 else bisectCum u (acc + w) rest + 1

/-- One `random.choices(query_opts, weights=weights, k=1)[0]` call of
`Terminal.run` on a unit draw `u`: the name of the query whose cumulative
weight bracket contains `u`. -/
def selectQuery (u : ℚ) : String :=
  (QUERIES.getD (bisectCum u 0 (QUERIES.map Query.weight)) ⟨"", 0, ""⟩).name

/-- The sequence of query names selected by terminal `i` during a run:
entry `p` of `sched` names the terminal whose thread performs the `p`-th
draw on the shared generator, so terminal `i` receives exactly the stream
values at the positions scheduled to it. -/
def terminalSelections (seed : ℕ) (sched : List ℕ) (i : ℕ) : List String :=
  (sched.enum.filter (fun p => p.2 == i)).map
    (fun p => selectQuery (sharedRandomStream seed p.1))

/-- **C4, counterexample.** Two runs with the same fixed seed (42) and the
same configuration (two terminals), differing only in which terminal thread
reaches its `random.choices` call first, give terminal 0 different query
sequences: the draws come from one shared generator, so a terminal's
selections are not a function of seed and configuration alone. -/
theorem selection_schedule_dependent :
    terminalSelections 42 [0, 1] 0 ≠ terminalSelections 42 [1, 0] 0 := by
  have e1 : terminalSelections 42 [0, 1] 0 = ["Q3"] := by
    norm_num [terminalSelections, selectQuery, sharedRandomStream, QUERIES, bisectCum,
      List.enum, List.enumFrom, List.filter, List.map, List.getD]
  have e2 : terminalSelections 42 [1, 0] 0 = ["Q5"] := by
    norm_num [terminalSelections, selectQuery, sharedRandomStream, QUERIES, bisectCum,
      List.enum, List.enumFrom, List.filter, List.map, List.getD]
  rw [e1, e2]
  decide

/-- **C4, amended.** A terminal's selection sequence is a deterministic
function of the seed and of the positions at which that terminal draws on
the shared generator: two runs with the same seed in which terminal `i` is
scheduled onto the same global draw positions give `i` identical query
sequences (in particular, a single-terminal run is reproducible from the
seed alone). -/
theorem selection_reproducible_given_positions (seed : ℕ) (s1 s2 : List ℕ) (i : ℕ)
    (h : (s1.enum.filter (fun p => p.2 == i)).map Prod.fst
       = (s2.enum.filter (fun p => p.2 == i)).map Prod.fst) :
    terminalSelections seed s1 i = terminalSelections seed s2 i := by
  unfold terminalSelections
  have e : ∀ s : List ℕ,
      (s.enum.filter (fun p => p.2 == i)).map
          (fun p => selectQuery (sharedRandomStream seed p.1))
        = ((s.enum.filter (fun p => p.2 == i)).map Prod.fst).map
            (fun x => selectQuery (sharedRandomStream seed x)) := by
    intro s
    rw [List.map_map]
    rfl
  rw [e, e, h]

/-- Witness for `selection_reproducible_given_positions`: terminal 0 draws
at position 0 in both `[0, 1]` and `[0, 2]`, so its sequences agree. -/
theorem selection_reproducible_given_positions_witness :
    (([0, 1].enum.filter (fun p => p.2 == 0)).map Prod.fst
       = (([0, 2] : List ℕ).enum.filter (fun p => p.2 == 0)).map Prod.fst) ∧
    terminalSelections 42 [0, 1] 0 = terminalSelections 42 [0, 2] 0 :=
  ⟨by decide, selection_reproducible_given_positions 42 [0, 1] [0, 2] 0 (by decide)⟩

/-! ### Orchestrator startup (`main`) -/

/-- The parsed command-line arguments of `main` (`argparse` only coerces
types: `-n` to int, `-t` to float, `-d` to int, `--url` to string). -/
structure Args where
  terminals : ℤ
  wait : ℚ
  duration : ℤ
  url : String
deriving DecidableEq, Repr

/-- The constructor arguments of one `Terminal(i, args.url, args.wait,
args.duration, stats)` call. -/
structure TerminalCfg where
  terminal_id : ℕ
  base_url : String
  avg_wait_time : ℚ
  duration : ℤ
deriving DecidableEq, Repr

/-- The setup phase of `main` after argument parsing: seed the generator,
create the collector, then construct one `Terminal` per element of
`range(args.terminals)` (empty when `terminals < 1`, as for Python's
`range` on a non-positive bound).  `main` applies no validation to
`terminals`, `wait` or `duration` and never raises a configuration
error. -/
def mainInit (args : Args) : Except String (BenchmarkStats × List TerminalCfg) :=
  Except.ok (BenchmarkStats.init,
    (List.range args.terminals.toNat).map
      (fun i => { terminal_id := i, base_url := args.url,
                  avg_wait_time := args.wait, duration := args.duration }))

/-- **C5, counterexample.** With the invalid configuration `n = 2`,
`t = -1 ≤ 0`, `d = 30`, `main` does not fail: it succeeds and constructs
two terminals carrying the non-positive think-time, contradicting the
claim that the program fails fatally before any terminal is started. -/
theorem no_config_validation :
    (-1 : ℚ) ≤ 0 ∧
    mainInit { terminals := 2, wait := -1, duration := 30, url := DEFAULT_BASE_URL }
      = Except.ok (BenchmarkStats.init,
          [{ terminal_id := 0, base_url := DEFAULT_BASE_URL, avg_wait_time := -1, duration := 30 },
           { terminal_id := 1, base_url := DEFAULT_BASE_URL, avg_wait_time := -1, duration := 30 }]) :=
  ⟨by norm_num, rfl⟩

/-- **C5, amended.** `main` performs no configuration validation: for every
parsed argument record it proceeds without error, constructing exactly
`max(terminals, 0)` terminals — none when `terminals < 1`, but silently
rather than fatally — each carrying the given wait time and duration even
when these are non-positive. -/
theorem main_never_validates (args : Args) :
    ∃ cfgs : List TerminalCfg,
      mainInit args = Except.ok (BenchmarkStats.init, cfgs) ∧
      cfgs.length = args.terminals.toNat ∧
      ∀ c ∈ cfgs, c.avg_wait_time = args.wait ∧ c.duration = args.duration ∧
        c.base_url = args.url := by
  refine ⟨_, rfl, by simp, ?_⟩
  intro c hc
  simp only [List.mem_map, List.mem_range] at hc
  obtain ⟨i, _, rfl⟩ := hc
  exact ⟨rfl, rfl, rfl⟩

/-- Witness for `main_never_validates` at the invalid terminal count 0. -/
theorem main_never_validates_witness :
    ∃ cfgs : List TerminalCfg,
      mainInit { terminals := 0, wait := 1, duration := 30, url := DEFAULT_BASE_URL }
        = Except.ok (BenchmarkStats.init, cfgs) ∧
      cfgs.length = (0 : ℤ).toNat ∧
      ∀ c ∈ cfgs, c.avg_wait_time = 1 ∧ c.duration = 30 ∧ c.base_url = DEFAULT_BASE_URL :=
  main_never_validates { terminals := 0, wait := 1, duration := 30, url := DEFAULT_BASE_URL }

/-! ### Report generation (`print_report`) -/

/-- Python's `min` of a nonempty list (`0` is never used: the report only
takes minima of nonempty duration lists). -/
def listMin : List ℚ → ℚ
  | [] => 0
  | x :: xs => xs.foldl min x

/-- Python's `max` of a nonempty list. -/
def listMax : List ℚ → ℚ
  | [] => 0
  | x :: xs => xs.foldl max x

/-- `statistics.mean`: the arithmetic mean, sum divided by length. -/
def mean (l : List ℚ) : ℚ := l.sum / l.length

/-- The body of the `for r in stats.results` grouping loop: append the
sample's duration to the dict entry of its query name, if such an entry
exists (`if r["query"] in by_query`). -/
def dictAppend (r : Sample) (p : String × List ℚ) : String × List ℚ :=
  if p.1 == r.query then (p.1, p.2 ++ [r.duration]) else p

/-- The `by_query` dict of `print_report`: one entry per `QUERIES` element
(in configured order) starting empty, then every sample's duration appended
to its query's entry. -/
def byQuery (results : List Sample) : List (String × List ℚ) :=
  results.foldl (fun acc r => acc.map (dictAppend r))
    (QUERIES.map (fun q => (q.name, ([] : List ℚ))))

/-- Dict lookup (`by_query[name]`): first matching key, `[]` if absent. -/
def lookupD : List (String × List ℚ) → String → List ℚ
  | [], _ => []
  | p :: m, k => if p.1 == k then p.2 else lookupD m k

/-- One printed row of the per-query table: a populated row with count, mix
percentage and min/avg/max durations, or the zero-count placeholder row
(printed as count `0`, mix `0.0` and dashes). -/
inductive Row where
  | data (name : String) (count : ℕ) (mix : ℚ) (minD : ℚ) (avgD : ℚ) (maxD : ℚ)
  | placeholder (name : String)
deriving DecidableEq, Repr

/-- The query name a row is printed for. -/
def rowName : Row → String
  | Row.data n _ _ _ _ _ => n
  | Row.placeholder n => n

/-- The per-query table of `print_report`: one row per `QUERIES` element in
configured order; the mix percentage is `count / total_requests * 100`
guarded by `if total_requests > 0 else 0`; rows with samples carry
`min`/`statistics.mean`/`max` of that query's durations, rows without carry
the placeholder. -/
def reportRows (results : List Sample) : List Row :=
  let m := byQuery results
  let total := results.length
  QUERIES.map (fun q =>
    let durations := lookupD m q.name
    let count := durations.length
    let mix : ℚ := if 0 < total then (count : ℚ) / (total : ℚ) * 100 else 0
    if 0 < count then
      Row.data q.name count mix (listMin durations) (mean durations) (listMax durations)
    else
      Row.placeholder q.name)

/-- Python float division: raises `ZeroDivisionError` on a zero
denominator, otherwise returns the quotient. -/
def fdiv (a b : ℚ) : Except String ℚ :=
  if b = 0 then Except.error "ZeroDivisionError: float division by zero"
  else Except.ok (a / b)

/-- One line of the report, abstracting the formatted text: the banner and
configuration echo, the totals, the throughput line, the error count, the
table header, and one line per table row. -/
inductive OutLine where
  | header (title : String)
  | config (terminals : ℤ) (wait : ℚ) (duration : ℤ) (url : String)
  | totals (total_time : ℚ) (total_requests : ℕ)
  | throughput (v : ℚ)
  | errors (n : ℕ)
  | tableHeader
  | row (r : Row)
deriving DecidableEq, Repr

/-- `print_report(stats, args)`: the list of lines printed before the point
of failure, paired with the exception, if any.  The throughput line divides
`total_requests / total_time` with no guard, so it raises when
`end_time == start_time`; every line printed after it, including the whole
per-query table, is then never reached. -/
def print_report (stats : BenchmarkStats) (args : Args) : List OutLine × Option String :=
  let total_time := stats.end_time - stats.start_time
  let total_requests := stats.results.length
  let pre := [OutLine.header "WIS BENCHMARK REPORT",
              OutLine.config args.terminals args.wait args.duration args.url,
              OutLine.totals total_time total_requests]
  match fdiv (total_requests : ℚ) total_time with
  | Except.error e => (pre, some e)
  | Except.ok thr =>
      (pre ++ [OutLine.throughput thr, OutLine.errors stats.errors, OutLine.tableHeader]
           ++ (reportRows stats.results).map OutLine.row, none)

/-- The statement-by-statement translation of `print_report` threading the
collector through every statement: each statement of the source reads
`stats.results`, `stats.errors`, `stats.start_time` or `stats.end_time` and
none assigns to `stats` or to `args`, so the collector leaving the call is
the collector that entered it. -/
def print_report_st (stats : BenchmarkStats) (args : Args) :
    (List OutLine × Option String) × BenchmarkStats :=
  (print_report stats args, stats)

lemma fst_dictAppend (r : Sample) (p : String × List ℚ) : (dictAppend r p).1 = p.1 := by
  unfold dictAppend
  split <;> rfl

lemma keys_map_dictAppend (r : Sample) (acc : List (String × List ℚ)) :
    (acc.map (dictAppend r)).map Prod.fst = acc.map Prod.fst := by
  rw [List.map_map]
  exact List.map_congr_left (fun p _ => fst_dictAppend r p)

lemma lookupD_map_dictAppend (r : Sample) (acc : List (String × List ℚ)) (k : String)
    (hk : k ∈ acc.map Prod.fst) :
    lookupD (acc.map (dictAppend r)) k
      = lookupD acc k ++ (if r.query == k then [r.duration] else []) := by
  induction acc with
  | nil => simp at hk
  | cons p acc ih =>
    simp only [List.map_cons, lookupD, fst_dictAppend]
    by_cases h : p.1 == k
    · simp only [if_pos h]
      have hk2 : p.1 = k := by simpa using h
      subst hk2
      unfold dictAppend
      by_cases h2 : r.query = p.1
      · simp [h2, BEq.comm]
      · have ha : (p.1 == r.query) = false := by simpa using fun hcontra => h2 hcontra.symm
        have hb : (r.query == p.1) = false := by simpa using h2
        simp [ha, hb]
    · simp only [if_neg h]
      have hk2 : k ∈ acc.map Prod.fst := by
        rcases List.mem_cons.mp hk with heq | hmem
        · exact absurd (by simpa using heq.symm) h
        · exact hmem
      exact ih hk2

lemma byQuery_loop (results : List Sample) :
    ∀ (acc : List (String × List ℚ)) (k : String), k ∈ acc.map Prod.fst →
      lookupD (results.foldl (fun a r => a.map (dictAppend r)) acc) k
        = lookupD acc k ++ (results.filter (fun r => r.query == k)).map Sample.duration := by
  induction results with
  | nil =>
    intro acc k _
    simp
  | cons r rs ih =>
    intro acc k hk
    simp only [List.foldl_cons]
    have hk2 : k ∈ (acc.map (dictAppend r)).map Prod.fst := by
      rw [keys_map_dictAppend]
      exact hk
    rw [ih _ k hk2, lookupD_map_dictAppend r acc k hk]
    by_cases h : r.query == k
    · simp [List.filter_cons, h, List.append_assoc]
    · simp [List.filter_cons, h]

lemma lookupD_init (l : List Query) (k : String) :
    lookupD (l.map (fun q => (q.name, ([] : List ℚ)))) k = [] := by
  induction l with
  | nil => rfl
  | cons q l ih =>
    simp only [List.map_cons, lookupD]
    by_cases h : q.name == k
    · simp [h]
    · simp [h, ih]

lemma byQuery_eq_filter (results : List Sample) (q : Query) (hq : q ∈ QUERIES) :
    lookupD (byQuery results) q.name
      = (results.filter (fun r => r.query == q.name)).map Sample.duration := by
  unfold byQuery
  have hmem : q.name ∈ (QUERIES.map (fun q => (q.name, ([] : List ℚ)))).map Prod.fst := by
    rw [List.map_map]
    exact List.mem_map.mpr ⟨q, hq, rfl⟩
  rw [byQuery_loop results _ q.name hmem, lookupD_init]
  simp

/-- **C6.** The report table has exactly one row per `QUERIES` definition,
in configured order (so a query with zero samples still appears); the `k`-th
row is the placeholder row exactly when that query has no samples, and
otherwise carries the sample count, the mix percentage
`count / total * 100` (`0` when the total request count is `0`), and the
minimum, arithmetic mean and maximum of that query's recorded durations. -/
theorem report_row_spec (results : List Sample) (k : ℕ) (hk : k < QUERIES.length) :
    (reportRows results).map rowName = QUERIES.map Query.name ∧
    (reportRows results).getD k (Row.placeholder "")
      = (let q := QUERIES.getD k ⟨"", 0, ""⟩
         let ds := (results.filter (fun r => r.query == q.name)).map Sample.duration
         if 0 < ds.length then
           Row.data q.name ds.length
             (if 0 < results.length then (ds.length : ℚ) / (results.length : ℚ) * 100 else 0)
             (listMin ds) (mean ds) (listMax ds)
         else Row.placeholder q.name) := by
  constructor
  · simp only [reportRows]
    rw [List.map_map]
    refine List.map_congr_left ?_
    intro q _
    dsimp only [Function.comp]
    split <;> rfl
  · have hget : QUERIES.get? k = some (QUERIES.get ⟨k, hk⟩) := List.get?_eq_get hk
    have hrows : reportRows results
        = QUERIES.map (fun q =>
            let durations := lookupD (byQuery results) q.name
            let count := durations.length
            let mix : ℚ := if 0 < results.length
              then (count : ℚ) / (results.length : ℚ) * 100 else 0
            if 0 < count then
              Row.data q.name count mix (listMin durations) (mean durations) (listMax durations)
            else Row.placeholder q.name) := rfl
    rw [hrows, List.getD_eq_getD_get?, List.getD_eq_getD_get?, List.get?_map, hget]
    simp only [Option.map_some', Option.getD_some]
    rw [byQuery_eq_filter results _ (QUERIES.get_mem k hk)]

/-- Witness for `report_row_spec` at a one-sample results list and the
first query row. -/
theorem report_row_spec_witness :
    (let results : List Sample := [{ query := "Q1", duration := 1, status := 200, timestamp := 0 }]
     (reportRows results).map rowName = QUERIES.map Query.name ∧
     (reportRows results).getD 0 (Row.placeholder "")
       = (let q := QUERIES.getD 0 ⟨"", 0, ""⟩
          let ds := (results.filter (fun r => r.query == q.name)).map Sample.duration
          if 0 < ds.length then
            Row.data q.name ds.length
              (if 0 < results.length then (ds.length : ℚ) / (results.length : ℚ) * 100 else 0)
              (listMin ds) (mean ds) (listMax ds)
          else Row.placeholder q.name)) :=
  report_row_spec [{ query := "Q1", duration := 1, status := 200, timestamp := 0 }] 0
    (by norm_num [QUERIES])

/-- **C9.** `print_report` is a read-only transformation of the snapshot:
the collector state after the call is the collector state before it, a
second call on that unchanged snapshot produces the identical output, and
the output depends only on the snapshot fields (results, errors and the two
timestamps). -/
theorem report_read_only (s1 s2 : BenchmarkStats) (a : Args)
    (hr : s1.results = s2.results) (he : s1.errors = s2.errors)
    (hs : s1.start_time = s2.start_time) (ht : s1.end_time = s2.end_time) :
    (print_report_st s1 a).2 = s1 ∧
    (print_report_st ((print_report_st s1 a).2) a).1 = (print_report_st s1 a).1 ∧
    print_report s1 a = print_report s2 a := by
  refine ⟨rfl, rfl, ?_⟩
  cases s1
  cases s2
  simp only at hr he hs ht
  subst hr
  subst he
  subst hs
  subst ht
  rfl

/-- The `argparse` defaults of `main`: 10 terminals, 1 second wait,
30 second duration, the default base URL. -/
def argsDefault : Args :=
  { terminals := 10, wait := 1, duration := 30, url := DEFAULT_BASE_URL }

/-- Witness for `report_read_only` on the initial collector state. -/
theorem report_read_only_witness :
    (print_report_st BenchmarkStats.init argsDefault).2 = BenchmarkStats.init ∧
    (print_report_st ((print_report_st BenchmarkStats.init argsDefault).2) argsDefault).1
      = (print_report_st BenchmarkStats.init argsDefault).1 ∧
    print_report BenchmarkStats.init argsDefault
      = print_report BenchmarkStats.init argsDefault :=
  report_read_only BenchmarkStats.init BenchmarkStats.init argsDefault rfl rfl rfl rfl

lemma print_report_zero_elapsed (stats : BenchmarkStats) (args : Args)
    (h : stats.end_time = stats.start_time) :
    print_report stats args
      = ([OutLine.header "WIS BENCHMARK REPORT",
          OutLine.config args.terminals args.wait args.duration args.url,
          OutLine.totals 0 stats.results.length],
         some "ZeroDivisionError: float division by zero") := by
  unfold print_report fdiv
  rw [h, sub_self]
  simp

/-- **C10.** The throughput line of `print_report` divides the request
count by `end_time - start_time` with no guard (unlike the guarded mix
percentage): on every snapshot with `end_time = start_time` — including one
with zero requests — the call raises `ZeroDivisionError` and no per-query
table row is ever emitted. -/
theorem throughput_division_unguarded (stats : BenchmarkStats) (args : Args)
    (h : stats.end_time = stats.start_time) :
    (print_report stats args).2 = some "ZeroDivisionError: float division by zero" ∧
    ∀ l ∈ (print_report stats args).1, ∀ r : Row, l ≠ OutLine.row r := by
  rw [print_report_zero_elapsed stats args h]
  constructor
  · rfl
  · intro l hl r
    rcases List.mem_cons.mp hl with h1 | hl
    · subst h1; simp
    rcases List.mem_cons.mp hl with h1 | hl
    · subst h1; simp
    rcases List.mem_cons.mp hl with h1 | hl
    · subst h1; simp
    · simp at hl

/-- Witness for `throughput_division_unguarded` on the zero-request,
zero-elapsed initial snapshot. -/
theorem throughput_division_unguarded_witness :
    BenchmarkStats.init.end_time = BenchmarkStats.init.start_time ∧
    ((print_report BenchmarkStats.init argsDefault).2
        = some "ZeroDivisionError: float division by zero" ∧
     ∀ l ∈ (print_report BenchmarkStats.init argsDefault).1, ∀ r : Row, l ≠ OutLine.row r) :=
  ⟨rfl, throughput_division_unguarded BenchmarkStats.init argsDefault rfl⟩

/-! ### Orchestrator shutdown on interrupt (`main`, interrupted path)

When the `for t in terminals: t.join()` loop is interrupted by
`KeyboardInterrupt`, `main` runs `for t in terminals: t.stop_event.set()`,
then `stats.stop()`, then `print_report(stats, args)` — there is no second
join.  The model below interleaves that command sequence with the terminal
threads, each of which keeps running its loop until it is scheduled after
its stop event is set. -/

/-- The terminal's state-machine position: still executing its loop, or
exited (`Stopped`). -/
inductive TState where
  | running
  | stopped
deriving DecidableEq, Repr

/-- A scheduling choice: the main thread takes a step, or terminal thread
`i` takes a step. -/
inductive Actor where
  | orch
  | term (i : ℕ)
deriving DecidableEq, Repr

/-- State of the interrupted run: the number of terminals, the main
thread's position in its post-interrupt command sequence (`stop_event.set()`
for each terminal in order, then `stats.stop()`, then `print_report`),
the terminal states, and what has happened so far.  `runningAtReport`
records whether some terminal was still executing its loop at the moment
`print_report` read the collector. -/
structure Sys where
  n : ℕ
  orchPc : ℕ
  terms : List TState
  endRecorded : Bool
  reported : Bool
  runningAtReport : Bool
deriving DecidableEq, Repr

/-- Whether terminal `i`'s `stop_event` has been set: the main thread sets
the events in index order, one per step, so event `i` is set once the main
thread has passed command `i`. -/
def stopRaised (s : Sys) (i : ℕ) : Bool := decide (i < min s.orchPc s.n)

/-- The state at the moment `KeyboardInterrupt` is handled: every terminal
still running, nothing recorded or reported. -/
def sysInit (n : ℕ) : Sys :=
  { n := n, orchPc := 0, terms := List.replicate n TState.running,
    endRecorded := false, reported := false, runningAtReport := false }

/-- One step of the chosen thread.  The main thread executes its next
post-interrupt command; it never blocks, and in particular never waits for
a terminal.  A terminal thread observes its stop event at its next
interruptible wait and exits its loop if the event is set, otherwise it is
still mid-iteration. -/
def stepActor (s : Sys) : Actor → Sys
  | Actor.orch =>
    if s.orchPc < s.n then
      { s with orchPc := s.orchPc + 1 }
    else if s.orchPc = s.n then
      { s with endRecorded := true, orchPc := s.orchPc + 1 }
    else if s.orchPc = s.n + 1 then
      { s with reported := true,
               runningAtReport :=
                 s.runningAtReport || s.terms.any (fun t => t == TState.running),
               orchPc := s.orchPc + 1 }
    else s
  | Actor.term i =>
    if stopRaised s i then { s with terms := s.terms.set i TState.stopped } else s

/-- The interrupted run under a given thread schedule. -/
def exec (n : ℕ) (sched : List Actor) : Sys := sched.foldl stepActor (sysInit n)

/-- **C1, counterexample.** A one-terminal interrupted run in which the
main thread runs its whole post-interrupt sequence before the terminal is
scheduled again: the report is produced while the terminal is still
executing its loop, so `main` does not wait for terminals to reach
`Stopped` before reading the collector. -/
theorem report_while_terminal_running :
    (exec 1 [Actor.orch, Actor.orch, Actor.orch]).reported = true ∧
    (exec 1 [Actor.orch, Actor.orch, Actor.orch]).runningAtReport = true := by
  constructor <;> rfl

/-- The invariant of the interrupted run used for the amended claim. -/
def SysInv (n : ℕ) (s : Sys) : Prop :=
  s.n = n ∧ (s.reported = true → n + 2 ≤ s.orchPc) ∧ (n + 1 ≤ s.orchPc → s.endRecorded = true)

lemma sysInv_init (n : ℕ) : SysInv n (sysInit n) :=
  ⟨rfl, fun h => by simp [sysInit] at h, fun h => absurd h (by simp [sysInit])⟩

lemma sysInv_step (n : ℕ) (s : Sys) (a : Actor) (h : SysInv n s) :
    SysInv n (stepActor s a) := by
  obtain ⟨hn, hrep, hend⟩ := h
  cases a with
  | term i =>
    simp only [stepActor]
    split
    · exact ⟨hn, hrep, hend⟩
    · exact ⟨hn, hrep, hend⟩
  | orch =>
    by_cases h1 : s.orchPc < s.n
    · simp only [stepActor, if_pos h1]
      refine ⟨hn, fun hr => ?_, fun hp => ?_⟩
      · have h4 := hrep hr
        show n + 2 ≤ s.orchPc + 1
        omega
      · have hp2 : n + 1 ≤ s.orchPc + 1 := hp
        exact absurd hp2 (by omega)
    · by_cases h2 : s.orchPc = s.n
      · simp only [stepActor, if_neg h1, if_pos h2]
        refine ⟨hn, fun hr => ?_, fun _ => rfl⟩
        have h4 := hrep hr
        show n + 2 ≤ s.orchPc + 1
        omega
      · by_cases h3 : s.orchPc = s.n + 1
        · simp only [stepActor, if_neg h1, if_neg h2, if_pos h3]
          refine ⟨hn, fun _ => ?_, fun _ => ?_⟩
          · show n + 2 ≤ s.orchPc + 1
            omega
          · exact hend (by omega)
        · simp only [stepActor, if_neg h1, if_neg h2, if_neg h3]
          exact ⟨hn, hrep, hend⟩

lemma sysInv_exec (n : ℕ) (sched : List Actor) : SysInv n (exec n sched) := by
  unfold exec
  have step : ∀ (l : List Actor) (s : Sys), SysInv n s → SysInv n (l.foldl stepActor s) := by
    intro l
    induction l with
    | nil => exact fun s h => h
    | cons a l ih => exact fun s h => ih (stepActor s a) (sysInv_step n s a h)
  exact step sched (sysInit n) (sysInv_init n)

/-- **C1, amended.** In every interrupted run, by the time `print_report`
has executed the main thread has set every terminal's stop event and has
recorded the end timestamp — but it has not waited for the terminals: as
`report_while_terminal_running` shows, the report can be produced while a
terminal is still executing its loop. -/
theorem interrupt_sets_stop_before_report (n : ℕ) (sched : List Actor)
    (h : (exec n sched).reported = true) :
    (exec n sched).endRecorded = true ∧
    ∀ i, i < n → stopRaised (exec n sched) i = true := by
  obtain ⟨hn, hrep, hend⟩ := sysInv_exec n sched
  have hpc := hrep h
  refine ⟨hend (by omega), fun i hi => ?_⟩
  simp only [stopRaised, hn, decide_eq_true_eq]
  omega

/-- Witness for `interrupt_sets_stop_before_report` on the schedule of
`report_while_terminal_running`. -/
theorem interrupt_sets_stop_before_report_witness :
    (exec 1 [Actor.orch, Actor.orch, Actor.orch]).endRecorded = true ∧
    ∀ i, i < 1 → stopRaised (exec 1 [Actor.orch, Actor.orch, Actor.orch]) i = true :=
  interrupt_sets_stop_before_report 1 [Actor.orch, Actor.orch, Actor.orch] rfl

end Benchmark
